import Mathlib

/-!
# WAL texture reader: the three `read_wal.c` programs

A shallow embedding of `src/read_wal.c`, `src/c/read_wal.c` and
`src/web/c/read_wal.c`, and the properties of their header decode and of the
first-mip read of the web variant.

Platform fixed by the embedding (the file header says `gcc read_wal.c`):
`sizeof(int) = 4`, two's complement, little-endian object representation,
64-bit `size_t`, and `fopen(.., "r")` yields the file's bytes untranslated.

The programs never initialise their locals and never test what `fread` or
`fseek` return.  The storage of every local before the first statement is
therefore an input of the model (`Indeterminate`), and the values the calls
return are kept next to the decoded values so that theorems can speak of them.
The web variant puts its pixel array on the stack; the stack left for it is an
input too (`room`, below the 8 MiB the platform allows by default).
-/

namespace Wal

/-- An `unsigned char`. -/
abbrev Byte := Fin 256

/-- A `FILE *` open for reading: the bytes of the file and the file position
indicator. -/
structure FILE where
  data : List Byte
  pos : Nat
  deriving DecidableEq, Repr

/-- The stream `fopen(path, "r")` hands back when the file exists. -/
def fopen (bytes : List Byte) : FILE := ⟨bytes, 0⟩

/-- Contents of an object of `n` bytes after `got` was copied to its start:
the bytes past `got` keep what the object held before (`old i` is byte `i`). -/
def store (old : Nat → Byte) (n : Nat) (got : List Byte) : List Byte :=
  got ++ ((List.range n).drop got.length).map old

/-- Record of one `fread(ptr, size, nmemb, stream)` call. -/
structure Fread where
  /-- the object at `ptr` after the call -/
  object : List Byte
  /-- the bytes transferred from the stream -/
  got : List Byte
  /-- the returned number of complete items -/
  ret : Nat
  /-- the stream after the call -/
  stream : FILE
  deriving DecidableEq, Repr

/-- `fread(ptr, size, nmemb, stream)`: transfers the bytes at the file position,
at most `size * nmemb` of them and no more than the file holds, advances the
position by the number transferred and returns the number of complete items.
The bytes of an item the file ends in are stored like the others, as the C
library does. -/
def fread (old : Nat → Byte) (size nmemb : Nat) (stream : FILE) : Fread :=
  let got := (stream.data.drop stream.pos).take (size * nmemb)
  { object := store old (size * nmemb) got
    got := got
    ret := if size = 0 then 0 else got.length / size
    stream := { stream with pos := stream.pos + got.length } }

/-- `fseek(stream, offset, SEEK_SET)`: a negative offset is refused (returns
`-1`, position unchanged); any other offset becomes the position, also one
past the end of the file (returns `0`). -/
def fseek (stream : FILE) (offset : Int) : Int × FILE :=
  if offset < 0 then (-1, stream) else (0, { stream with pos := offset.toNat })

/-- Value of an `int` object from its four bytes of storage. -/
def int_value (b : List Byte) : Int :=
  let u : Nat := (b.getD 0 0).val + 256 * (b.getD 1 0).val
    + 65536 * (b.getD 2 0).val + 16777216 * (b.getD 3 0).val
  if u < 2147483648 then (u : Int) else (u : Int) - 4294967296

/-- Element `i` of an `int[]` object. -/
def int_at (b : List Byte) (i : Nat) : Int := int_value ((b.drop (4 * i)).take 4)

/-- Storage of the locals of `main` before any statement has run. -/
structure Indeterminate where
  tex_name : Nat → Byte
  width : Nat → Byte
  height : Nat → Byte
  mip_level_offsets : Nat → Byte
  anim_name : Nat → Byte
  flags : Nat → Byte
  contents : Nat → Byte
  value : Nat → Byte
  pixel_data : Nat → Byte

/-- The locals every variant declares and prints. -/
structure Header3 where
  tex_name : List Byte
  width : Int
  height : Int
  deriving DecidableEq, Repr

/-- The eight header locals of `src/c/read_wal.c` and `src/web/c/read_wal.c`. -/
structure Header where
  tex_name : List Byte
  width : Int
  height : Int
  mip_level_offsets : List Int
  anim_name : List Byte
  flags : Int
  contents : Int
  value : Int
  deriving DecidableEq, Repr

/-- What a run of header `fread`s leaves behind. -/
structure Decoded (α : Type) where
  /-- the locals -/
  hdr : α
  /-- what each `fread` returned, in call order (the programs drop these) -/
  rets : List Nat
  /-- the stream after the last call -/
  fh : FILE
  deriving DecidableEq, Repr

/-- Error kinds the specification names. -/
inductive WalError
  | SourceUnavailable
  | TruncatedHeader
  | InvalidDimensions
  | InvalidOffset
  | TruncatedPixelData
  deriving DecidableEq, Repr

/-- How a piece of a program ends. -/
inductive Outcome (α : Type)
  /-- ran to its end -/
  | ok (a : α)
  /-- reported an error and stopped (the programs do so when `fopen` fails) -/
  | failure (e : WalError)
  /-- C gives the execution no defined behaviour -/
  | undefined
  /-- the process is killed by a signal: an array outgrew the stack -/
  | killed
  deriving DecidableEq, Repr

/-- Characters of a string literal as bytes. -/
def lit (s : String) : List Byte := s.toList.map (fun c => Fin.ofNat c.toNat)

/-- The `%d` conversion. -/
def fmt_d (n : Int) : List Byte := lit (toString n)

/-- The `%s` conversion applied to an array: the bytes before the first zero
byte; an array without a zero byte sends `printf` past its end. -/
def fmt_s (a : List Byte) : Option (List Byte) :=
  if (0 : Byte) ∈ a then some (a.takeWhile (fun b => b ≠ 0)) else none

/-- A line `printf` writes from a fixed text and one `%s`. -/
def line_s (text : String) (a : List Byte) : Option (List Byte) :=
  (fmt_s a).map (fun s => lit text ++ s ++ lit "\n")

/-- A line `printf` writes from a fixed text and one `%d`. -/
def line_d (text : String) (n : Int) : List Byte := lit text ++ fmt_d n ++ lit "\n"

/-! ## `src/read_wal.c` -/

namespace Root

/-- Lines 14-21: the three `fread`s. -/
def main_header (g : Indeterminate) (fh : FILE) : Decoded Header3 :=
  let r1 := fread g.tex_name 32 1 fh
  let r2 := fread g.width 4 1 r1.stream
  let r3 := fread g.height 4 1 r2.stream
  { hdr := { tex_name := r1.object, width := int_value r2.object, height := int_value r3.object }
    rets := [r1.ret, r2.ret, r3.ret]
    fh := r3.stream }

/-- Lines 23-25: the three `printf`s. -/
def main_print (h : Header3) : Option (List (List Byte)) :=
  (line_s "The tex name is " h.tex_name).map (fun l1 =>
    [l1, line_d "The width is " h.width, line_d "The height is " h.height])

/-- What a completed run leaves. -/
structure Run where
  header : Header3
  stdout : List (List Byte)
  status : Int
  deriving DecidableEq, Repr

/-- The program; `file` is `none` when `fopen` returns `NULL`. -/
def main (file : Option (List Byte)) (g : Indeterminate) : Outcome Run :=
  match file with
  | none => .failure .SourceUnavailable
  | some bytes =>
    let d := main_header g (fopen bytes)
    match main_print d.hdr with
    | none => .undefined
    | some out => .ok { header := d.hdr, stdout := out, status := 0 }

end Root

/-! ## `src/c/read_wal.c` -/

namespace C

/-- Lines 14-30: the eight `fread`s. -/
def main_header (g : Indeterminate) (fh : FILE) : Decoded Header :=
  let r1 := fread g.tex_name 32 1 fh
  let r2 := fread g.width 4 1 r1.stream
  let r3 := fread g.height 4 1 r2.stream
  let r4 := fread g.mip_level_offsets 16 1 r3.stream
  let r5 := fread g.anim_name 32 1 r4.stream
  let r6 := fread g.flags 4 1 r5.stream
  let r7 := fread g.contents 4 1 r6.stream
  let r8 := fread g.value 4 1 r7.stream
  { hdr :=
      { tex_name := r1.object
        width := int_value r2.object
        height := int_value r3.object
        mip_level_offsets := (List.range 4).map (int_at r4.object)
        anim_name := r5.object
        flags := int_value r6.object
        contents := int_value r7.object
        value := int_value r8.object }
    rets := [r1.ret, r2.ret, r3.ret, r4.ret, r5.ret, r6.ret, r7.ret, r8.ret]
    fh := r8.stream }

/-- Lines 32-39: the eight `printf`s. -/
def main_print (h : Header) : Option (List (List Byte)) :=
  (line_s "The tex name is " h.tex_name).bind (fun l1 =>
    (line_s "The anim name is " h.anim_name).map (fun l5 =>
      [ l1
      , line_d "The width is " h.width
      , line_d "The height is " h.height
      , lit "The mip level offsets are: " ++ fmt_d (h.mip_level_offsets.getD 0 0) ++ lit ", "
          ++ fmt_d (h.mip_level_offsets.getD 1 0) ++ lit ", "
          ++ fmt_d (h.mip_level_offsets.getD 2 0) ++ lit ", "
          ++ fmt_d (h.mip_level_offsets.getD 3 0) ++ lit "\n"
      , l5
      , line_d "The flags is " h.flags
      , line_d "The contents is " h.contents
      , line_d "The value is " h.value ]))

/-- What a completed run leaves. -/
structure Run where
  header : Header
  stdout : List (List Byte)
  status : Int
  deriving DecidableEq, Repr

/-- The program; `file` is `none` when `fopen` returns `NULL`. -/
def main (file : Option (List Byte)) (g : Indeterminate) : Outcome Run :=
  match file with
  | none => .failure .SourceUnavailable
  | some bytes =>
    let d := main_header g (fopen bytes)
    match main_print d.hdr with
    | none => .undefined
    | some out => .ok { header := d.hdr, stdout := out, status := 0 }

end C

/-! ## `src/web/c/read_wal.c` -/

namespace Web

/-- Lines 25-41: the eight `fread`s. -/
def main_header (g : Indeterminate) (fh : FILE) : Decoded Header :=
  let r1 := fread g.tex_name 32 1 fh
  let r2 := fread g.width 4 1 r1.stream
  let r3 := fread g.height 4 1 r2.stream
  let r4 := fread g.mip_level_offsets 16 1 r3.stream
  let r5 := fread g.anim_name 32 1 r4.stream
  let r6 := fread g.flags 4 1 r5.stream
  let r7 := fread g.contents 4 1 r6.stream
  let r8 := fread g.value 4 1 r7.stream
  { hdr :=
      { tex_name := r1.object
        width := int_value r2.object
        height := int_value r3.object
        mip_level_offsets := (List.range 4).map (int_at r4.object)
        anim_name := r5.object
        flags := int_value r6.object
        contents := int_value r7.object
        value := int_value r8.object }
    rets := [r1.ret, r2.ret, r3.ret, r4.ret, r5.ret, r6.ret, r7.ret, r8.ret]
    fh := r8.stream }

/-- Lines 43-50: the eight `printf`s. -/
def main_print (h : Header) : Option (List (List Byte)) :=
  (line_s "The tex name is " h.tex_name).bind (fun l1 =>
    (line_s "The anim name is " h.anim_name).map (fun l5 =>
      [ l1
      , line_d "The width is " h.width
      , line_d "The height is " h.height
      , lit "The mip level offsets are: " ++ fmt_d (h.mip_level_offsets.getD 0 0) ++ lit ", "
          ++ fmt_d (h.mip_level_offsets.getD 1 0) ++ lit ", "
          ++ fmt_d (h.mip_level_offsets.getD 2 0) ++ lit ", "
          ++ fmt_d (h.mip_level_offsets.getD 3 0) ++ lit "\n"
      , l5
      , line_d "The flags is " h.flags
      , line_d "The contents is " h.contents
      , line_d "The value is " h.value ]))

/-- Record of lines 54-56. -/
structure MipRead where
  /-- `sizeof(pixel_data)`, the byte count handed to `fread` -/
  requested : Nat
  /-- what `fseek` returned (dropped by the program) -/
  seek_ret : Int
  /-- the file position the `fread` started from -/
  start : Nat
  /-- the bytes `fread` transferred -/
  got : List Byte
  /-- what `fread` returned (dropped by the program) -/
  read_ret : Nat
  /-- the array after the `fread` -/
  pixel_data : List Byte
  /-- the stream after the `fread` -/
  fh : FILE
  deriving DecidableEq, Repr

/-- Lines 54-56: `int pixel_data[width * height]`, the `fseek` to
`mip_level_offsets[0]` and the one `fread` of `sizeof(pixel_data)` bytes.
The product is an `int` product and the array needs a positive element
count; outside that C defines nothing. The array lives on the stack: `room` is
the number of bytes the stack has left for it when line 54 is reached, and an
array larger than that ends the process there, before the `fseek`. -/
def main_pixels (room : Nat) (old : Nat → Byte) (h : Header) (fh : FILE) : Outcome MipRead :=
  let n := h.width * h.height
  if n ≤ 0 ∨ 2147483647 < n then .undefined
  else
    let size := 4 * n.toNat
    if room < size then .killed
    else
      let s := fseek fh (h.mip_level_offsets.getD 0 0)
      let r := fread old size 1 s.2
      .ok { requested := size, seek_ret := s.1, start := s.2.pos, got := r.got,
            read_ret := r.ret, pixel_data := r.object, fh := r.stream }

/-- What a completed run leaves. -/
structure Run where
  header : Header
  stdout : List (List Byte)
  mip : MipRead
  status : Int
  deriving DecidableEq, Repr

/-- The program; `file` is `none` when `fopen` returns `NULL`, `room` is the
stack left for `pixel_data`. -/
def main (room : Nat) (file : Option (List Byte)) (g : Indeterminate) : Outcome Run :=
  match file with
  | none => .failure .SourceUnavailable
  | some bytes =>
    let d := main_header g (fopen bytes)
    match main_print d.hdr with
    | none => .undefined
    | some out =>
      match main_pixels room g.pixel_data d.hdr d.fh with
      | .ok m => .ok { header := d.hdr, stdout := out, mip := m, status := 0 }
      | .failure e => .failure e
      | .undefined => .undefined
      | .killed => .killed

end Web

/-! ## The layout the specification gives, and the inputs used below -/

/-- Little-endian signed 32-bit value of the four bytes of `src` at `off`. -/
def le_int32 (src : List Byte) (off : Nat) : Int :=
  let u : Nat := (src.getD off 0).val + 256 * (src.getD (off + 1) 0).val
    + 65536 * (src.getD (off + 2) 0).val + 16777216 * (src.getD (off + 3) 0).val
  if u < 2147483648 then (u : Int) else (u : Int) - 4294967296

/-- The header as the specification lays it out over the bytes of a source. -/
def layout (src : List Byte) : Header :=
  { tex_name := (src.drop 0).take 32
    width := le_int32 src 32
    height := le_int32 src 36
    mip_level_offsets := [le_int32 src 40, le_int32 src 44, le_int32 src 48, le_int32 src 52]
    anim_name := (src.drop 56).take 32
    flags := le_int32 src 88
    contents := le_int32 src 92
    value := le_int32 src 96 }

/-- The four bytes of the little-endian two's complement encoding of `n`. -/
def le_bytes (n : Int) : List Byte :=
  let u : Nat := (n % 4294967296).toNat
  [Fin.ofNat u, Fin.ofNat (u / 256), Fin.ofNat (u / 65536), Fin.ofNat (u / 16777216)]

/-- The on-disk form of a header: the fields in order, integers little-endian. -/
def encode (h : Header) : List Byte :=
  h.tex_name ++ le_bytes h.width ++ le_bytes h.height
    ++ (h.mip_level_offsets.map le_bytes).flatten
    ++ h.anim_name ++ le_bytes h.flags ++ le_bytes h.contents ++ le_bytes h.value

/-- The values an `int` holds. -/
def int_range (v : Int) : Prop := -2147483648 ≤ v ∧ v ≤ 2147483647

instance (v : Int) : Decidable (int_range v) := by unfold int_range; infer_instance

/-- Header values that have an on-disk form: names of 32 bytes, four offsets,
every integer an `int`. -/
def well_formed (h : Header) : Prop :=
  h.tex_name.length = 32 ∧ h.anim_name.length = 32 ∧ h.mip_level_offsets.length = 4
    ∧ int_range h.width ∧ int_range h.height ∧ (∀ o ∈ h.mip_level_offsets, int_range o)
    ∧ int_range h.flags ∧ int_range h.contents ∧ int_range h.value

instance (h : Header) : Decidable (well_formed h) := by unfold well_formed; infer_instance

/-- The 100 header bytes of the 64x64 `wall01` scenario. -/
def wall01_header : List Byte :=
  lit "wall01" ++ List.replicate 26 0
    ++ [64, 0, 0, 0] ++ [64, 0, 0, 0]
    ++ [100, 0, 0, 0] ++ [100, 16, 0, 0] ++ [100, 20, 0, 0] ++ [100, 21, 0, 0]
    ++ List.replicate 32 0
    ++ [0, 0, 0, 0] ++ [0, 0, 0, 0] ++ [0, 0, 0, 0]

/-- The header fields of the `wall01` scenario. -/
def wall01_fields : Header :=
  { tex_name := lit "wall01" ++ List.replicate 26 0
    width := 64
    height := 64
    mip_level_offsets := [100, 4196, 5220, 5476]
    anim_name := List.replicate 32 0
    flags := 0
    contents := 0
    value := 0 }

/-- The `wall01` values with both dimensions `-1`. -/
def neg_fields : Header := { wall01_fields with width := -1, height := -1 }

/-- The `wall01` values with width `0`. -/
def zero_fields : Header := { wall01_fields with width := 0 }

/-- A 1x1 header whose first mip offset is `-1`. -/
def negoff_fields : Header :=
  { wall01_fields with width := 1, height := 1, mip_level_offsets := [-1, 4196, 5220, 5476] }

/-- A 1x1 header whose first mip offset lies past the end of a 104-byte file. -/
def faroff_fields : Header :=
  { wall01_fields with width := 1, height := 1, mip_level_offsets := [5000, 4196, 5220, 5476] }

/-- The first 99 bytes of the `wall01` header: the last byte of `value` is missing. -/
def wall01_99 : List Byte := wall01_header.take 99

/-- The first 40 bytes of the `wall01` header: name, width and height. -/
def wall01_40 : List Byte := wall01_header.take 40

/-- Output of a run on the `wall01` header. -/
def wall01_stdout : List (List Byte) :=
  [ lit "The tex name is wall01\n", lit "The width is 64\n", lit "The height is 64\n"
  , lit "The mip level offsets are: 100, 4196, 5220, 5476\n", lit "The anim name is \n"
  , lit "The flags is 0\n", lit "The contents is 0\n", lit "The value is 0\n" ]

/-- Output of a run on `neg_fields`. -/
def neg_stdout : List (List Byte) :=
  [ lit "The tex name is wall01\n", lit "The width is -1\n", lit "The height is -1\n"
  , lit "The mip level offsets are: 100, 4196, 5220, 5476\n", lit "The anim name is \n"
  , lit "The flags is 0\n", lit "The contents is 0\n", lit "The value is 0\n" ]

/-- Output of a run on `negoff_fields`. -/
def negoff_stdout : List (List Byte) :=
  [ lit "The tex name is wall01\n", lit "The width is 1\n", lit "The height is 1\n"
  , lit "The mip level offsets are: -1, 4196, 5220, 5476\n", lit "The anim name is \n"
  , lit "The flags is 0\n", lit "The contents is 0\n", lit "The value is 0\n" ]

/-- A 1024x2048 header: its array of `int`s takes 8 MiB. -/
def big_fields : Header := { wall01_fields with width := 1024, height := 2048 }

/-- Prior storage in which every byte is `b`. -/
def filled (b : Byte) : Indeterminate :=
  ⟨fun _ => b, fun _ => b, fun _ => b, fun _ => b, fun _ => b, fun _ => b, fun _ => b,
    fun _ => b, fun _ => b⟩

/-- What the root variant leaves on the 40-byte source. -/
def wall01_40_run : Root.Run :=
  { header := { tex_name := lit "wall01" ++ List.replicate 26 0, width := 64, height := 64 }
    stdout := [lit "The tex name is wall01\n", lit "The width is 64\n", lit "The height is 64\n"]
    status := 0 }

/-! ## Lemmas on `fread`, the header reads, the encoding and the first-mip read -/

theorem wall01_header_length : wall01_header.length = 100 := rfl

theorem wall01_length_le (pixels : List Byte) : 100 ≤ (wall01_header ++ pixels).length := by
  rw [List.length_append, wall01_header_length]
  omega

theorem drop_min (data : List Byte) (off : Nat) :
    data.drop (min off data.length) = data.drop off := by
  rcases Nat.le_total off data.length with h | h
  · rw [Nat.min_eq_left h]
  · rw [Nat.min_eq_right h, List.drop_length, List.drop_eq_nil_of_le h]

/-- One `fread` of a single item of `size` bytes, from the position a run of
such reads has reached when it started at offset `0` and has asked for `off`
bytes so far. -/
theorem fread_at (old : Nat → Byte) (data : List Byte) (off size : Nat) (hs : 0 < size) :
    fread old size 1 ⟨data, min off data.length⟩ =
      { object := store old size ((data.drop off).take size)
        got := (data.drop off).take size
        ret := if off + size ≤ data.length then 1 else 0
        stream := ⟨data, min (off + size) data.length⟩ } := by
  have hne : size ≠ 0 := by omega
  simp only [fread, drop_min, Nat.mul_one, if_neg hne, List.length_take, List.length_drop]
  congr 1
  · by_cases h : off + size ≤ data.length
    · rw [if_pos h, Nat.min_eq_left (by omega), Nat.div_self hs]
    · rw [if_neg h, Nat.div_eq_of_lt (by omega)]
  · congr 1
    omega

theorem store_full (old : Nat → Byte) (n : Nat) (got : List Byte) (h : got.length = n) :
    store old n got = got := by
  simp [store, h]

theorem store_slice (old : Nat → Byte) (l : List Byte) (a n : Nat) (h : a + n ≤ l.length) :
    store old n ((l.drop a).take n) = (l.drop a).take n := by
  apply store_full
  simp
  omega

/-- The header reads of the web variant on any source: every object is the
source bytes at its offset laid over the object's prior contents. -/
theorem web_header_eq (src : List Byte) (g : Indeterminate) :
    Web.main_header g (fopen src) =
      { hdr :=
          { tex_name := store g.tex_name 32 ((src.drop 0).take 32)
            width := int_value (store g.width 4 ((src.drop 32).take 4))
            height := int_value (store g.height 4 ((src.drop 36).take 4))
            mip_level_offsets :=
              (List.range 4).map (int_at (store g.mip_level_offsets 16 ((src.drop 40).take 16)))
            anim_name := store g.anim_name 32 ((src.drop 56).take 32)
            flags := int_value (store g.flags 4 ((src.drop 88).take 4))
            contents := int_value (store g.contents 4 ((src.drop 92).take 4))
            value := int_value (store g.value 4 ((src.drop 96).take 4)) }
        rets :=
          [ if 32 ≤ src.length then 1 else 0, if 36 ≤ src.length then 1 else 0
          , if 40 ≤ src.length then 1 else 0, if 56 ≤ src.length then 1 else 0
          , if 88 ≤ src.length then 1 else 0, if 92 ≤ src.length then 1 else 0
          , if 96 ≤ src.length then 1 else 0, if 100 ≤ src.length then 1 else 0 ]
        fh := ⟨src, min 100 src.length⟩ } := by
  have h0 : fopen src = ⟨src, min 0 src.length⟩ := by simp [fopen]
  simp only [Web.main_header, h0, fread_at _ _ _ _ (by decide : 0 < 32),
    fread_at _ _ _ _ (by decide : 0 < 4), fread_at _ _ _ _ (by decide : 0 < 16)]

/-- The two eight-field variants run the same reads. -/
theorem c_header_eq_web (g : Indeterminate) (fh : FILE) :
    C.main_header g fh = Web.main_header g fh := rfl

/-- The header reads of the root variant on any source. -/
theorem root_header_eq (src : List Byte) (g : Indeterminate) :
    Root.main_header g (fopen src) =
      { hdr :=
          { tex_name := store g.tex_name 32 ((src.drop 0).take 32)
            width := int_value (store g.width 4 ((src.drop 32).take 4))
            height := int_value (store g.height 4 ((src.drop 36).take 4)) }
        rets :=
          [ if 32 ≤ src.length then 1 else 0, if 36 ≤ src.length then 1 else 0
          , if 40 ≤ src.length then 1 else 0 ]
        fh := ⟨src, min 40 src.length⟩ } := by
  have h0 : fopen src = ⟨src, min 0 src.length⟩ := by simp [fopen]
  simp only [Root.main_header, h0, fread_at _ _ _ _ (by decide : 0 < 32),
    fread_at _ _ _ _ (by decide : 0 < 4)]

theorem getD_drop_take (l : List Byte) (a n j : Nat) (d : Byte) (h : j < n) :
    ((l.drop a).take n).getD j d = l.getD (a + j) d := by
  simp [List.getD_eq_getElem?_getD, List.getElem?_take, h, List.getElem?_drop]

theorem int_value_drop_take (l : List Byte) (a : Nat) :
    int_value ((l.drop a).take 4) = le_int32 l a := by
  simp [int_value, le_int32, getD_drop_take]

theorem int_at_drop_take (l : List Byte) (a i : Nat) (h : i < 4) :
    int_at ((l.drop a).take 16) i = le_int32 l (a + 4 * i) := by
  have e : (((l.drop a).take 16).drop (4 * i)).take 4 = (l.drop (a + 4 * i)).take 4 := by
    rw [List.drop_take, List.take_take, List.drop_drop]
    congr 1
    all_goals omega
  rw [int_at, e, int_value_drop_take]

/-- On a source of at least 100 bytes the web variant's header reads all
complete, give the specification's layout and stop at position 100. -/
theorem web_header_full (src : List Byte) (g : Indeterminate) (h : 100 ≤ src.length) :
    Web.main_header g (fopen src) =
      { hdr := layout src, rets := [1, 1, 1, 1, 1, 1, 1, 1], fh := ⟨src, 100⟩ } := by
  rw [web_header_eq]
  rw [store_slice _ _ 0 32 (by omega), store_slice _ _ 32 4 (by omega),
    store_slice _ _ 36 4 (by omega), store_slice _ _ 40 16 (by omega),
    store_slice _ _ 56 32 (by omega), store_slice _ _ 88 4 (by omega),
    store_slice _ _ 92 4 (by omega), store_slice _ _ 96 4 (by omega)]
  simp only [int_value_drop_take, layout]
  have e : (List.range 4).map (int_at ((src.drop 40).take 16))
      = [le_int32 src 40, le_int32 src 44, le_int32 src 48, le_int32 src 52] := by
    have r : List.range 4 = [0, 1, 2, 3] := by decide
    rw [r]
    simp only [List.map_cons, List.map_nil]
    rw [int_at_drop_take _ _ 0 (by decide), int_at_drop_take _ _ 1 (by decide),
      int_at_drop_take _ _ 2 (by decide), int_at_drop_take _ _ 3 (by decide)]
  rw [e]
  have i1 : (32 ≤ src.length) := by omega
  have i2 : (36 ≤ src.length) := by omega
  have i3 : (40 ≤ src.length) := by omega
  have i4 : (56 ≤ src.length) := by omega
  have i5 : (88 ≤ src.length) := by omega
  have i6 : (92 ≤ src.length) := by omega
  have i7 : (96 ≤ src.length) := by omega
  simp only [if_pos i1, if_pos i2, if_pos i3, if_pos i4, if_pos i5, if_pos i6, if_pos i7,
    if_pos h, Nat.min_eq_left h]

theorem le_bytes_int_value (a b c d : Byte) : le_bytes (int_value [a, b, c, d]) = [a, b, c, d] := by
  obtain ⟨a, ha⟩ := a
  obtain ⟨b, hb⟩ := b
  obtain ⟨c, hc⟩ := c
  obtain ⟨d, hd⟩ := d
  have key : ((int_value [⟨a, ha⟩, ⟨b, hb⟩, ⟨c, hc⟩, ⟨d, hd⟩]) % 4294967296).toNat
      = a + 256 * b + 65536 * c + 16777216 * d := by
    simp only [int_value, List.getD_cons_zero, List.getD_cons_succ]
    split <;> omega
  simp only [le_bytes, key]
  simp only [List.cons.injEq, and_true, Fin.ext_iff, Fin.ofNat]
  refine ⟨?_, ?_, ?_, ?_⟩ <;> omega

theorem int_value_le_bytes (v : Int) (h : int_range v) : int_value (le_bytes v) = v := by
  obtain ⟨h1, h2⟩ := h
  simp only [le_bytes, int_value, List.getD_cons_zero, List.getD_cons_succ, Fin.ofNat]
  split <;> omega

theorem le_bytes_length (v : Int) : (le_bytes v).length = 4 := rfl

theorem le_int32_skip (a b : List Byte) (n k : Nat) (h : a.length = n) (hk : n ≤ k) :
    le_int32 (a ++ b) k = le_int32 b (k - n) := by
  subst h
  simp only [le_int32, List.getD_eq_getElem?_getD]
  rw [List.getElem?_append_right hk, List.getElem?_append_right (by omega),
    List.getElem?_append_right (by omega), List.getElem?_append_right (by omega)]
  have e1 : k + 1 - a.length = k - a.length + 1 := by omega
  have e2 : k + 2 - a.length = k - a.length + 2 := by omega
  have e3 : k + 3 - a.length = k - a.length + 3 := by omega
  rw [e1, e2, e3]

theorem le_int32_head (v : Int) (b : List Byte) (h : int_range v) :
    le_int32 (le_bytes v ++ b) 0 = v := by
  have e : le_int32 (le_bytes v ++ b) 0 = int_value (le_bytes v) := by
    simp [le_int32, int_value, le_bytes]
  rw [e, int_value_le_bytes v h]

theorem encode_length (h : Header) (wf : well_formed h) : (encode h).length = 100 := by
  obtain ⟨h1, h2, h3, -⟩ := wf
  obtain ⟨tn, w, ht, mo, an, f, c, v⟩ := h
  match mo, h3 with
  | [o0, o1, o2, o3], _ =>
    simp only [encode, List.map_cons, List.map_nil, List.flatten, List.length_append,
      le_bytes_length, List.length_nil] at *
    omega

theorem layout_encode (h : Header) (wf : well_formed h) (rest : List Byte) :
    layout (encode h ++ rest) = h := by
  obtain ⟨h1, h2, h3, r1, r2, r3, r4, r5, r6⟩ := wf
  obtain ⟨tn, w, ht, mo, an, f, c, v⟩ := h
  match mo, h3, r3 with
  | [o0, o1, o2, o3], _, r3 =>
    simp only at h1 h2 r1 r2 r4 r5 r6
    have q0 : int_range o0 := r3 o0 (by simp)
    have q1 : int_range o1 := r3 o1 (by simp)
    have q2 : int_range o2 := r3 o2 (by simp)
    have q3 : int_range o3 := r3 o3 (by simp)
    have e : encode ⟨tn, w, ht, [o0, o1, o2, o3], an, f, c, v⟩ ++ rest
        = tn ++ (le_bytes w ++ (le_bytes ht ++ (le_bytes o0 ++ (le_bytes o1 ++ (le_bytes o2
          ++ (le_bytes o3 ++ (an ++ (le_bytes f ++ (le_bytes c ++ (le_bytes v ++ rest)))))))))) := by
      simp [encode, List.flatten]
    rw [e]
    simp only [layout]
    have s4 : ∀ (x : Int) (b : List Byte) (k : Nat), 4 ≤ k →
        le_int32 (le_bytes x ++ b) k = le_int32 b (k - 4) :=
      fun x b k hk => le_int32_skip _ _ 4 k (le_bytes_length x) hk
    have s32 : ∀ (a b : List Byte) (k : Nat), a.length = 32 → 32 ≤ k →
        le_int32 (a ++ b) k = le_int32 b (k - 32) :=
      fun a b k ha hk => le_int32_skip _ _ 32 k ha hk
    congr 1
    · simp [h1]
    · rw [s32 _ _ _ h1 (by decide)]; exact le_int32_head w _ r1
    · rw [s32 _ _ _ h1 (by decide), s4 _ _ _ (by decide)]; exact le_int32_head ht _ r2
    · have m0 := le_int32_head o0 (le_bytes o1 ++ (le_bytes o2 ++ (le_bytes o3 ++ (an ++ (le_bytes f
        ++ (le_bytes c ++ (le_bytes v ++ rest))))))) q0
      have m1 := le_int32_head o1 (le_bytes o2 ++ (le_bytes o3 ++ (an ++ (le_bytes f
        ++ (le_bytes c ++ (le_bytes v ++ rest)))))) q1
      have m2 := le_int32_head o2 (le_bytes o3 ++ (an ++ (le_bytes f
        ++ (le_bytes c ++ (le_bytes v ++ rest))))) q2
      have m3 := le_int32_head o3 (an ++ (le_bytes f ++ (le_bytes c ++ (le_bytes v ++ rest)))) q3
      rw [s32 _ _ 40 h1 (by decide), s32 _ _ 44 h1 (by decide), s32 _ _ 48 h1 (by decide),
        s32 _ _ 52 h1 (by decide)]
      simp only [s4, Nat.reduceSub, Nat.reduceLeDiff, Nat.le_refl]
      rw [m0, m1, m2, m3]
    · have p : tn ++ (le_bytes w ++ (le_bytes ht ++ (le_bytes o0 ++ (le_bytes o1 ++ (le_bytes o2
          ++ (le_bytes o3 ++ (an ++ (le_bytes f ++ (le_bytes c ++ (le_bytes v ++ rest))))))))))
          = (tn ++ le_bytes w ++ le_bytes ht ++ le_bytes o0 ++ le_bytes o1 ++ le_bytes o2
              ++ le_bytes o3) ++ (an ++ (le_bytes f ++ (le_bytes c ++ (le_bytes v ++ rest)))) := by
        simp only [List.append_assoc]
      rw [p, List.drop_left' (by simp only [List.length_append, le_bytes_length, h1]),
        List.take_left' h2]
    · rw [s32 _ _ 88 h1 (by decide)]
      simp only [s4, Nat.reduceSub, Nat.reduceLeDiff, Nat.le_refl]
      rw [s32 _ _ 32 h2 (by decide)]
      exact le_int32_head f _ r4
    · rw [s32 _ _ 92 h1 (by decide)]
      simp only [s4, Nat.reduceSub, Nat.reduceLeDiff, Nat.le_refl]
      rw [s32 _ _ 36 h2 (by decide), s4 _ _ _ (by decide)]
      exact le_int32_head c _ r5
    · rw [s32 _ _ 96 h1 (by decide)]
      simp only [s4, Nat.reduceSub, Nat.reduceLeDiff, Nat.le_refl]
      rw [s32 _ _ 40 h2 (by decide), s4 _ _ _ (by decide), s4 _ _ _ (by decide)]
      exact le_int32_head v _ r6
set_option maxRecDepth 100000 in
/-- The layout read off the `wall01` header, whatever follows it. -/
theorem layout_wall01 (pixels : List Byte) :
    layout (wall01_header ++ pixels) = wall01_fields := by
  have a1 : ((wall01_header ++ pixels).drop 0).take 32 = lit "wall01" ++ List.replicate 26 0 :=
    rfl
  have a2 : le_int32 (wall01_header ++ pixels) 32 = 64 := rfl
  have a3 : le_int32 (wall01_header ++ pixels) 36 = 64 := rfl
  have a4 : le_int32 (wall01_header ++ pixels) 40 = 100 := rfl
  have a5 : le_int32 (wall01_header ++ pixels) 44 = 4196 := rfl
  have a6 : le_int32 (wall01_header ++ pixels) 48 = 5220 := rfl
  have a7 : le_int32 (wall01_header ++ pixels) 52 = 5476 := rfl
  have a8 : ((wall01_header ++ pixels).drop 56).take 32 = List.replicate 32 0 := rfl
  have a9 : le_int32 (wall01_header ++ pixels) 88 = 0 := rfl
  have a10 : le_int32 (wall01_header ++ pixels) 92 = 0 := rfl
  have a11 : le_int32 (wall01_header ++ pixels) 96 = 0 := rfl
  simp only [layout, wall01_fields, a1, a2, a3, a4, a5, a6, a7, a8, a9, a10, a11]

theorem wf_wall01 : well_formed wall01_fields := by decide
theorem wf_neg : well_formed neg_fields := by decide
theorem wf_negoff : well_formed negoff_fields := by decide
theorem wf_faroff : well_formed faroff_fields := by decide

theorem encode_append_length (h : Header) (wf : well_formed h) (rest : List Byte) :
    100 ≤ (encode h ++ rest).length := by
  rw [List.length_append, encode_length h wf]
  omega

theorem drop_encode (h : Header) (wf : well_formed h) (rest : List Byte) :
    (encode h ++ rest).drop 100 = rest :=
  List.drop_left' (encode_length h wf)

theorem wall01_print : Web.main_print wall01_fields = some wall01_stdout := by decide

theorem store_nil_getElem? (old : Nat → Byte) (n i : Nat) (h : i < n) :
    (store old n [])[i]? = some (old i) := by
  simp [store, List.getElem?_map, List.getElem?_range, h]

theorem store_take (old : Nat → Byte) (n : Nat) (got : List Byte) :
    (store old n got).take got.length = got := by
  simp [store]

theorem store_getElem?_ge (old : Nat → Byte) (n i : Nat) (got : List Byte)
    (h1 : got.length ≤ i) (h2 : i < n) : (store old n got)[i]? = some (old i) := by
  simp only [store]
  rw [List.getElem?_append_right h1, List.getElem?_map, List.getElem?_drop,
    List.getElem?_range (by omega)]
  have c : got.length + (i - got.length) = i := by omega
  rw [c]
  rfl

theorem neg_print : Web.main_print neg_fields = some neg_stdout := by decide
theorem negoff_print : Web.main_print negoff_fields = some negoff_stdout := by decide

theorem take4 (l : List Byte) (a : Nat) (h : a + 4 ≤ l.length) :
    (l.drop a).take 4 = [l.getD a 0, l.getD (a + 1) 0, l.getD (a + 2) 0, l.getD (a + 3) 0] := by
  apply List.ext_getElem
  · simp; omega
  · intro i h1 h2
    simp at h1 h2
    have : i = 0 ∨ i = 1 ∨ i = 2 ∨ i = 3 := by omega
    rcases this with rfl | rfl | rfl | rfl <;>
      simp [List.getD_eq_getElem?_getD, List.getElem?_eq_getElem, h, (by omega : a < l.length),
        (by omega : a + 1 < l.length), (by omega : a + 2 < l.length),
        (by omega : a + 3 < l.length)]

theorem le_int32_range (src : List Byte) (k : Nat) : int_range (le_int32 src k) := by
  have b0 := (src.getD k 0).isLt
  have b1 := (src.getD (k + 1) 0).isLt
  have b2 := (src.getD (k + 2) 0).isLt
  have b3 := (src.getD (k + 3) 0).isLt
  simp only [int_range, le_int32]
  split <;> omega

theorem le_bytes_le_int32 (src : List Byte) (k : Nat) (h : k + 4 ≤ src.length) :
    le_bytes (le_int32 src k) = (src.drop k).take 4 := by
  have e : le_int32 src k
      = int_value [src.getD k 0, src.getD (k + 1) 0, src.getD (k + 2) 0, src.getD (k + 3) 0] := by
    simp [le_int32, int_value]
  rw [e, le_bytes_int_value, take4 src k h]

theorem slice_add (l : List Byte) (a n b m : Nat) (hb : b = a + n) :
    (l.drop a).take n ++ (l.drop b).take m = (l.drop a).take (n + m) := by
  subst hb
  rw [List.take_add, List.drop_drop]

theorem layout_well_formed (src : List Byte) (h : 100 ≤ src.length) :
    well_formed (layout src) := by
  refine ⟨?_, ?_, rfl, le_int32_range _ _, le_int32_range _ _, ?_, le_int32_range _ _,
    le_int32_range _ _, le_int32_range _ _⟩
  · simp [layout]; omega
  · simp [layout]; omega
  · intro o ho
    simp only [layout, List.mem_cons, List.mem_singleton, List.not_mem_nil, or_false] at ho
    rcases ho with rfl | rfl | rfl | rfl <;> exact le_int32_range _ _

theorem encode_layout (src : List Byte) (h : 100 ≤ src.length) :
    encode (layout src) = (src.drop 0).take 100 := by
  simp only [encode, layout, List.map_cons, List.map_nil, List.flatten, List.append_nil]
  rw [le_bytes_le_int32 src 32 (by omega), le_bytes_le_int32 src 36 (by omega),
    le_bytes_le_int32 src 40 (by omega), le_bytes_le_int32 src 44 (by omega),
    le_bytes_le_int32 src 48 (by omega), le_bytes_le_int32 src 52 (by omega),
    le_bytes_le_int32 src 88 (by omega), le_bytes_le_int32 src 92 (by omega),
    le_bytes_le_int32 src 96 (by omega)]
  simp only [← List.append_assoc]
  rw [slice_add src 0 32 32 4 rfl, slice_add src 0 _ 36 4 rfl, slice_add src 0 _ 40 4 rfl,
    slice_add src 0 _ 44 4 rfl, slice_add src 0 _ 48 4 rfl, slice_add src 0 _ 52 4 rfl,
    slice_add src 0 _ 56 32 rfl, slice_add src 0 _ 88 4 rfl, slice_add src 0 _ 92 4 rfl,
    slice_add src 0 _ 96 4 rfl]

theorem web_pixels_ne_failure (room : Nat) (old : Nat → Byte) (h : Header) (fh : FILE)
    (e : WalError) : Web.main_pixels room old h fh ≠ .failure e := by
  by_cases c : h.width * h.height ≤ 0 ∨ 2147483647 < h.width * h.height
  · simp [Web.main_pixels, c]
  · by_cases r : room < 4 * (h.width * h.height).toNat
    · simp [Web.main_pixels, c, r]
    · simp [Web.main_pixels, c, r]

theorem web_pixels_undefined (room : Nat) (old : Nat → Byte) (h : Header) (fh : FILE)
    (hn : h.width * h.height ≤ 0) : Web.main_pixels room old h fh = .undefined := by
  simp [Web.main_pixels, hn]

/-- The array does not fit the stack: the step ends at its declaration. -/
theorem web_pixels_killed (room : Nat) (old : Nat → Byte) (h : Header) (fh : FILE)
    (h1 : 0 < h.width * h.height) (h2 : h.width * h.height ≤ 2147483647)
    (hr : room < 4 * (h.width * h.height).toNat) :
    Web.main_pixels room old h fh = .killed := by
  have c : ¬ (h.width * h.height ≤ 0 ∨ 2147483647 < h.width * h.height) := by omega
  simp only [Web.main_pixels, if_neg c, if_pos hr]

theorem web_pixels_ok (room : Nat) (old : Nat → Byte) (h : Header) (fh : FILE)
    (h1 : 0 < h.width * h.height) (h2 : h.width * h.height ≤ 2147483647)
    (hr : 4 * (h.width * h.height).toNat ≤ room) :
    Web.main_pixels room old h fh =
      .ok { requested := 4 * (h.width * h.height).toNat
            seek_ret := (fseek fh (h.mip_level_offsets.getD 0 0)).1
            start := (fseek fh (h.mip_level_offsets.getD 0 0)).2.pos
            got := (fread old (4 * (h.width * h.height).toNat) 1
              (fseek fh (h.mip_level_offsets.getD 0 0)).2).got
            read_ret := (fread old (4 * (h.width * h.height).toNat) 1
              (fseek fh (h.mip_level_offsets.getD 0 0)).2).ret
            pixel_data := (fread old (4 * (h.width * h.height).toNat) 1
              (fseek fh (h.mip_level_offsets.getD 0 0)).2).object
            fh := (fread old (4 * (h.width * h.height).toNat) 1
              (fseek fh (h.mip_level_offsets.getD 0 0)).2).stream } := by
  have c : ¬ (h.width * h.height ≤ 0 ∨ 2147483647 < h.width * h.height) := by omega
  have r : ¬ room < 4 * (h.width * h.height).toNat := by omega
  simp only [Web.main_pixels, if_neg c, if_neg r]

/-- One `fread` of a single item from any position inside the file. -/
theorem fread_one (old : Nat → Byte) (data : List Byte) (p size : Nat) (hs : 0 < size) :
    fread old size 1 ⟨data, p⟩ =
      { object := store old size ((data.drop p).take size)
        got := (data.drop p).take size
        ret := if p + size ≤ data.length then 1 else 0
        stream := ⟨data, p + min size (data.length - p)⟩ } := by
  have hne : size ≠ 0 := by omega
  simp only [fread, Nat.mul_one, if_neg hne, List.length_take, List.length_drop]
  congr 1
  by_cases h : p + size ≤ data.length
  · rw [if_pos h, Nat.min_eq_left (by omega), Nat.div_self hs]
  · rw [if_neg h, Nat.div_eq_of_lt (by omega)]

theorem fseek_nonneg (fh : FILE) (o : Int) (h : 0 ≤ o) : fseek fh o = (0, ⟨fh.data, o.toNat⟩) := by
  have c : ¬ o < 0 := by omega
  simp [fseek, c]

theorem fseek_neg (fh : FILE) (o : Int) (h : o < 0) : fseek fh o = (-1, fh) := by
  simp [fseek, h]

/-- The first-mip step when the array size is defined, the array fits the stack
and the offset is not negative. -/
theorem web_pixels_seek (room : Nat) (old : Nat → Byte) (h : Header) (fh : FILE)
    (h1 : 0 < h.width * h.height) (h2 : h.width * h.height ≤ 2147483647)
    (hr : 4 * (h.width * h.height).toNat ≤ room)
    (ho : 0 ≤ h.mip_level_offsets.getD 0 0) :
    Web.main_pixels room old h fh =
      .ok { requested := 4 * (h.width * h.height).toNat
            seek_ret := 0
            start := (h.mip_level_offsets.getD 0 0).toNat
            got := (fh.data.drop (h.mip_level_offsets.getD 0 0).toNat).take
              (4 * (h.width * h.height).toNat)
            read_ret :=
              if (h.mip_level_offsets.getD 0 0).toNat + 4 * (h.width * h.height).toNat
                ≤ fh.data.length then 1 else 0
            pixel_data := store old (4 * (h.width * h.height).toNat)
              ((fh.data.drop (h.mip_level_offsets.getD 0 0).toNat).take
                (4 * (h.width * h.height).toNat))
            fh := ⟨fh.data, (h.mip_level_offsets.getD 0 0).toNat
              + min (4 * (h.width * h.height).toNat)
                  (fh.data.length - (h.mip_level_offsets.getD 0 0).toNat)⟩ } := by
  rw [web_pixels_ok room old h fh h1 h2 hr, fseek_nonneg fh _ ho]
  simp only [fread_one old fh.data _ _ (by omega : 0 < 4 * (h.width * h.height).toNat)]

/-- The first-mip step when the array size is defined, the array fits the stack
and the offset is negative: the `fseek` is refused and the read starts where
the stream stands. -/
theorem web_pixels_noseek (room : Nat) (old : Nat → Byte) (h : Header) (fh : FILE)
    (h1 : 0 < h.width * h.height) (h2 : h.width * h.height ≤ 2147483647)
    (hr : 4 * (h.width * h.height).toNat ≤ room)
    (ho : h.mip_level_offsets.getD 0 0 < 0) :
    Web.main_pixels room old h fh =
      .ok { requested := 4 * (h.width * h.height).toNat
            seek_ret := -1
            start := fh.pos
            got := (fh.data.drop fh.pos).take (4 * (h.width * h.height).toNat)
            read_ret := if fh.pos + 4 * (h.width * h.height).toNat ≤ fh.data.length then 1 else 0
            pixel_data := store old (4 * (h.width * h.height).toNat)
              ((fh.data.drop fh.pos).take (4 * (h.width * h.height).toNat))
            fh := ⟨fh.data, fh.pos
              + min (4 * (h.width * h.height).toNat) (fh.data.length - fh.pos)⟩ } := by
  rw [web_pixels_ok room old h fh h1 h2 hr, fseek_neg fh _ ho]
  obtain ⟨data, p⟩ := fh
  simp only [fread_one old data _ _ (by omega : 0 < 4 * (h.width * h.height).toNat)]

theorem web_main_ne_failure (room : Nat) (src : List Byte) (g : Indeterminate) (e : WalError) :
    Web.main room (some src) g ≠ .failure e := by
  simp only [Web.main]
  cases hp : Web.main_print (Web.main_header g (fopen src)).hdr with
  | none => simp
  | some out =>
    cases hm : Web.main_pixels room g.pixel_data (Web.main_header g (fopen src)).hdr
        (Web.main_header g (fopen src)).fh with
    | ok m => simp
    | failure e2 => exact absurd hm (web_pixels_ne_failure _ _ _ _ _)
    | undefined => simp
    | killed => simp

theorem c_main_ne_failure (src : List Byte) (g : Indeterminate) (e : WalError) :
    C.main (some src) g ≠ .failure e := by
  simp only [C.main]
  cases hp : C.main_print (C.main_header g (fopen src)).hdr <;> simp

theorem root_main_ne_failure (src : List Byte) (g : Indeterminate) (e : WalError) :
    Root.main (some src) g ≠ .failure e := by
  simp only [Root.main]
  cases hp : Root.main_print (Root.main_header g (fopen src)).hdr <;> simp

/-- A run of the web variant on a complete header, from its three parts. -/
theorem web_main_of (room : Nat) (src : List Byte) (g : Indeterminate) (h : 100 ≤ src.length)
    (out : List (List Byte)) (hp : Web.main_print (layout src) = some out)
    (m : Web.MipRead)
    (hm : Web.main_pixels room g.pixel_data (layout src) ⟨src, 100⟩ = .ok m) :
    Web.main room (some src) g
      = .ok { header := layout src, stdout := out, mip := m, status := 0 } := by
  simp only [Web.main, web_header_full src g h, hp, hm]

/-- The first-mip step on the `wall01` header followed by any pixel bytes. -/
theorem wall01_pixels (room : Nat) (hr : 16384 ≤ room) (old : Nat → Byte)
    (pixels : List Byte) :
    Web.main_pixels room old wall01_fields ⟨wall01_header ++ pixels, 100⟩ =
      .ok { requested := 16384, seek_ret := 0, start := 100, got := pixels.take 16384
            read_ret := if 16384 ≤ pixels.length then 1 else 0
            pixel_data := store old 16384 (pixels.take 16384)
            fh := ⟨wall01_header ++ pixels, 100 + min 16384 pixels.length⟩ } := by
  have e1 : (wall01_fields.mip_level_offsets.getD 0 0).toNat = 100 := by decide
  have e2 : 4 * (wall01_fields.width * wall01_fields.height).toNat = 16384 := by decide
  rw [web_pixels_seek room old wall01_fields _ (by decide) (by decide) (by rw [e2]; exact hr)
    (by decide)]
  simp only [e1, e2, List.drop_left' wall01_header_length, List.length_append,
    wall01_header_length]
  congr 2
  · have c : (100 + 16384 ≤ 100 + pixels.length) ↔ (16384 ≤ pixels.length) := by omega
    simp only [c]
  · congr 1
    omega

/-- A run of the web variant on the `wall01` header followed by any pixel bytes. -/
theorem wall01_run (room : Nat) (hr : 16384 ≤ room) (g : Indeterminate) (pixels : List Byte) :
    Web.main room (some (wall01_header ++ pixels)) g =
      .ok { header := wall01_fields, stdout := wall01_stdout
            mip := { requested := 16384, seek_ret := 0, start := 100, got := pixels.take 16384
                     read_ret := if 16384 ≤ pixels.length then 1 else 0
                     pixel_data := store g.pixel_data 16384 (pixels.take 16384)
                     fh := ⟨wall01_header ++ pixels, 100 + min 16384 pixels.length⟩ }
            status := 0 } := by
  have h := web_main_of room (wall01_header ++ pixels) g (wall01_length_le pixels)
  rw [layout_wall01] at h
  exact h _ wall01_print _ (wall01_pixels room hr g.pixel_data pixels)

/-- A run of the web variant on an encoded header followed by any bytes. -/
theorem encoded_run (room : Nat) (H : Header) (wf : well_formed H) (pixels : List Byte)
    (g : Indeterminate) (out : List (List Byte)) (hp : Web.main_print H = some out)
    (m : Web.MipRead)
    (hm : Web.main_pixels room g.pixel_data H ⟨encode H ++ pixels, 100⟩ = .ok m) :
    Web.main room (some (encode H ++ pixels)) g
      = .ok { header := H, stdout := out, mip := m, status := 0 } := by
  have h := web_main_of room (encode H ++ pixels) g (encode_append_length H wf pixels)
  rw [layout_encode H wf] at h
  exact h out hp m hm

theorem web_pixels_undefined_indep (room : Nat) (old1 old2 : Nat → Byte) (h : Header)
    (fh : FILE) (hm : Web.main_pixels room old1 h fh = .undefined) :
    Web.main_pixels room old2 h fh = .undefined := by
  by_cases c : h.width * h.height ≤ 0 ∨ 2147483647 < h.width * h.height
  · simp [Web.main_pixels, c]
  · by_cases r : room < 4 * (h.width * h.height).toNat
    · simp [Web.main_pixels, c, r] at hm
    · simp [Web.main_pixels, c, r] at hm

theorem web_pixels_killed_indep (room : Nat) (old1 old2 : Nat → Byte) (h : Header)
    (fh : FILE) (hm : Web.main_pixels room old1 h fh = .killed) :
    Web.main_pixels room old2 h fh = .killed := by
  by_cases c : h.width * h.height ≤ 0 ∨ 2147483647 < h.width * h.height
  · simp [Web.main_pixels, c] at hm
  · by_cases r : room < 4 * (h.width * h.height).toNat
    · simp [Web.main_pixels, c, r]
    · simp [Web.main_pixels, c, r] at hm

theorem wf_big : well_formed big_fields := by decide

/-- C1: on every source of at least 100 bytes the header reads of
`src/web/c/read_wal.c` and of `src/c/read_wal.c` leave exactly the layout of the
specification: `tex_name` = bytes 0..31, `width` = bytes 32..35, `height` =
bytes 36..39, the four mip offsets = bytes 40..55, `anim_name` = bytes 56..87,
`flags`, `contents`, `value` = bytes 88..99, every integer little-endian signed
32-bit; and on the `wall01` header followed by any pixel bytes they leave width
64, height 64, offsets 100, 4196, 5220, 5476 and the name `wall01` padded with
26 zero bytes. -/
theorem header_layout :
    (∀ (src : List Byte) (g : Indeterminate), 100 ≤ src.length →
      (Web.main_header g (fopen src)).hdr = layout src
        ∧ (C.main_header g (fopen src)).hdr = layout src)
    ∧ (∀ (pixels : List Byte) (g : Indeterminate),
      (Web.main_header g (fopen (wall01_header ++ pixels))).hdr = wall01_fields
        ∧ (C.main_header g (fopen (wall01_header ++ pixels))).hdr = wall01_fields) := by
  constructor
  · intro src g h
    rw [c_header_eq_web, web_header_full src g h]
    exact ⟨rfl, rfl⟩
  · intro pixels g
    rw [c_header_eq_web, web_header_full _ g (wall01_length_le pixels)]
    exact ⟨layout_wall01 pixels, layout_wall01 pixels⟩

/-- C1 at the `wall01` header followed by 4096 pixel bytes. -/
theorem header_layout_witness :
    100 ≤ (wall01_header ++ List.replicate 4096 (7 : Byte)).length
      ∧ (Web.main_header (filled 170) (fopen (wall01_header ++ List.replicate 4096 7))).hdr
          = layout (wall01_header ++ List.replicate 4096 7)
      ∧ (Web.main_header (filled 170) (fopen (wall01_header ++ List.replicate 4096 7))).hdr
          = wall01_fields :=
  ⟨wall01_length_le _,
    (header_layout.1 (wall01_header ++ List.replicate 4096 7) (filled 170)
      (wall01_length_le _)).1,
    (header_layout.2 (List.replicate 4096 7) (filled 170)).1⟩

/-! ## What the first-mip read asks for -/

/-- C2, the code against the claim: for every header with positive dimensions
whose `width*height` bytes at `mip_level_offsets[0]` lie inside the source, the
first-mip read of `src/web/c/read_wal.c` sizes an array of `width*height`
`int`s, that is `4*width*height` bytes and not the `width*height` of the claim.
When that array does not fit the stack the process ends at its declaration.
When it fits, `fread` is handed its size; it obtains the source bytes from the
offset on, at least `width*height` of them, and when the source ends before the
offset plus `4*width*height` the read stops at the end of the source and
returns 0. -/
theorem first_mip_request (room : Nat) (old : Nat → Byte) (h : Header) (fh : FILE)
    (hw : 0 < h.width) (hh : 0 < h.height) (hsz : h.width * h.height ≤ 2147483647)
    (ho : 0 ≤ h.mip_level_offsets.getD 0 0)
    (hin : h.mip_level_offsets.getD 0 0 + h.width * h.height ≤ fh.data.length) :
    (room < 4 * (h.width * h.height).toNat → Web.main_pixels room old h fh = .killed)
      ∧ (4 * (h.width * h.height).toNat ≤ room →
        ∃ m, Web.main_pixels room old h fh = .ok m
          ∧ m.requested = 4 * (h.width * h.height).toNat
          ∧ (h.width * h.height).toNat < m.requested
          ∧ m.start = (h.mip_level_offsets.getD 0 0).toNat
          ∧ m.got = (fh.data.drop m.start).take m.requested
          ∧ (h.width * h.height).toNat ≤ m.got.length
          ∧ (fh.data.length < m.start + m.requested →
              m.read_ret = 0 ∧ m.got.length < m.requested)) := by
  have hp : 0 < h.width * h.height := Int.mul_pos hw hh
  refine ⟨web_pixels_killed room old h fh hp hsz, fun hr => ?_⟩
  refine ⟨_, web_pixels_seek room old h fh hp hsz hr ho, rfl, ?_, rfl, rfl, ?_, ?_⟩
  · simp only
    omega
  · simp only [List.length_take, List.length_drop]
    omega
  · simp only [List.length_take, List.length_drop]
    intro hlt
    constructor
    · rw [if_neg (by omega)]
    · omega

/-- C2 at the `wall01` file of 4196 bytes: 16384 bytes are asked for at offset
100, the 4096 that exist are obtained, and `fread` returns 0. -/
theorem first_mip_request_witness :
    ∃ m, Web.main_pixels 8000000 (fun _ => 170) wall01_fields
        ⟨wall01_header ++ List.replicate 4096 7, 100⟩ = .ok m
      ∧ m.requested = 16384 ∧ m.start = 100 ∧ m.got = List.replicate 4096 7 ∧ m.read_ret = 0 := by
  have hlen : (wall01_header ++ List.replicate 4096 (7 : Byte)).length = 4196 := by
    rw [List.length_append, wall01_header_length, List.length_replicate]
  obtain ⟨m, hm, hreq, -, hstart, hgot, -, hshort⟩ :=
    (first_mip_request 8000000 (fun _ => 170) wall01_fields
      ⟨wall01_header ++ List.replicate 4096 7, 100⟩
      (by decide) (by decide) (by decide) (by decide) (by rw [hlen]; decide)).2 (by decide)
  have hreq2 : m.requested = 16384 := by rw [hreq]; decide
  have hstart2 : m.start = 100 := by rw [hstart]; decide
  refine ⟨m, hm, hreq2, hstart2, ?_, ?_⟩
  · rw [hgot, hstart2, hreq2, List.drop_left' wall01_header_length]
    exact List.take_of_length_le (by rw [List.length_replicate]; decide)
  · exact (hshort (by rw [hstart2, hreq2, hlen]; decide)).1

/-! ## Pixel data cut short -/

/-- C3 fails on the code: on the `wall01` header in a file of 4000 bytes the run
of `src/web/c/read_wal.c` reports nothing and ends with status 0; its `fread`
returned 0 and left an array whose first 3900 bytes are the file's and whose
byte 3900 is still what the array held before. -/
theorem truncated_file_short_buffer :
    (wall01_header ++ List.replicate 3900 (7 : Byte)).length = 4000
      ∧ ∃ r, Web.main 8000000 (some (wall01_header ++ List.replicate 3900 7)) (filled 170)
          = .ok r
        ∧ r.header = wall01_fields
        ∧ r.mip.got = List.replicate 3900 7
        ∧ r.mip.read_ret = 0
        ∧ r.mip.pixel_data.take 3900 = List.replicate 3900 7
        ∧ r.mip.pixel_data[3900]? = some 170
        ∧ r.status = 0 := by
  have hl : (List.replicate 3900 (7 : Byte)).length = 3900 := List.length_replicate _ _
  have ht : (List.replicate 3900 (7 : Byte)).take 16384 = List.replicate 3900 7 :=
    List.take_of_length_le (by rw [hl]; decide)
  refine ⟨by rw [List.length_append, wall01_header_length, hl], _,
    wall01_run 8000000 (by decide) _ _, rfl, ht, ?_, ?_, ?_, rfl⟩
  · simp only [hl]
    decide
  · simp only [ht]
    have := store_take (filled 170).pixel_data 16384 (List.replicate 3900 7)
    rw [hl] at this
    exact this
  · simp only [ht]
    exact store_getElem?_ge _ _ _ _ (by rw [hl]) (by decide)

/-- C3 as the code has it: when fewer than `width*height` bytes remain after
`mip_level_offsets[0]` (positive dimensions, the product an `int`, offset inside
the source) the first-mip read never reports `TruncatedPixelData`. When the
array does not fit the stack the process is killed at the array's declaration,
before `fseek` and `fread`. When it fits, `fread` transfers exactly the bytes
that remain, returns 0 (which the program drops) and leaves the stream at the
end of the source; the array starts with the bytes transferred and keeps its
prior contents after them. -/
theorem truncated_pixels_short_read (room : Nat) (old : Nat → Byte) (h : Header) (fh : FILE)
    (hw : 0 < h.width) (hh : 0 < h.height) (hsz : h.width * h.height ≤ 2147483647)
    (ho : 0 ≤ h.mip_level_offsets.getD 0 0)
    (hin : h.mip_level_offsets.getD 0 0 ≤ fh.data.length)
    (hshort : fh.data.length - h.mip_level_offsets.getD 0 0 < h.width * h.height) :
    Web.main_pixels room old h fh ≠ .failure .TruncatedPixelData
      ∧ (room < 4 * (h.width * h.height).toNat → Web.main_pixels room old h fh = .killed)
      ∧ (4 * (h.width * h.height).toNat ≤ room →
        ∃ m, Web.main_pixels room old h fh = .ok m
          ∧ m.got = fh.data.drop (h.mip_level_offsets.getD 0 0).toNat
          ∧ (m.got.length : Int) < h.width * h.height
          ∧ m.got.length < m.requested
          ∧ m.read_ret = 0
          ∧ m.pixel_data.take m.got.length = m.got
          ∧ (∀ i, m.got.length ≤ i → i < m.requested → m.pixel_data[i]? = some (old i))
          ∧ m.fh = ⟨fh.data, fh.data.length⟩) := by
  have hp : 0 < h.width * h.height := Int.mul_pos hw hh
  refine ⟨web_pixels_ne_failure _ _ _ _ _, web_pixels_killed room old h fh hp hsz,
    fun hr => ?_⟩
  have hl : (fh.data.drop (h.mip_level_offsets.getD 0 0).toNat).length
      < 4 * (h.width * h.height).toNat := by
    rw [List.length_drop]
    omega
  have hg : (fh.data.drop (h.mip_level_offsets.getD 0 0).toNat).take
      (4 * (h.width * h.height).toNat) = fh.data.drop (h.mip_level_offsets.getD 0 0).toNat :=
    List.take_of_length_le (by omega)
  refine ⟨_, web_pixels_seek room old h fh hp hsz hr ho, hg, ?_, ?_, ?_, ?_, ?_, ?_⟩
  · simp only [hg, List.length_drop]
    omega
  · simp only [hg]
    exact hl
  · simp only
    rw [List.length_drop] at hl
    rw [if_neg (by omega)]
  · simp only [hg]
    exact store_take _ _ _
  · intro i h1 h2
    simp only [hg] at h1 ⊢
    exact store_getElem?_ge _ _ _ _ h1 h2
  · simp only
    congr 1
    rw [List.length_drop] at hl
    omega

/-- C3 as the code has it, at the `wall01` header in a file of 4000 bytes, and
at a 1024x2048 header (an array of 8 MiB) in a file of 104 bytes, where the
process is killed. -/
theorem truncated_pixels_short_read_witness :
    (∃ m, Web.main_pixels 8000000 (fun _ => 170) wall01_fields
        ⟨wall01_header ++ List.replicate 3900 7, 100⟩ = .ok m
      ∧ m.got = (wall01_header ++ List.replicate 3900 7).drop 100
      ∧ m.read_ret = 0
      ∧ m.fh = ⟨wall01_header ++ List.replicate 3900 7, 4000⟩)
    ∧ Web.main_pixels 8000000 (fun _ => 170) big_fields ⟨encode big_fields ++ [1, 2, 3, 4], 100⟩
        = .killed := by
  have hlen : (wall01_header ++ List.replicate 3900 (7 : Byte)).length = 4000 := by
    rw [List.length_append, wall01_header_length, List.length_replicate]
  have hlen2 : ((encode big_fields ++ [1, 2, 3, 4]).length : Int) = 104 := by
    rw [List.length_append, encode_length big_fields wf_big]
    rfl
  constructor
  · obtain ⟨m, hm, hgot, -, -, hret, -, -, hfh⟩ :=
      (truncated_pixels_short_read 8000000 (fun _ => 170) wall01_fields
        ⟨wall01_header ++ List.replicate 3900 7, 100⟩
        (by decide) (by decide) (by decide) (by decide) (by rw [hlen]; decide)
        (by rw [hlen]; decide)).2.2 (by decide)
    exact ⟨m, hm, hgot, hret, by rw [hfh, hlen]⟩
  · exact (truncated_pixels_short_read 8000000 (fun _ => 170) big_fields
      ⟨encode big_fields ++ [1, 2, 3, 4], 100⟩
      (by decide) (by decide) (by decide) (by decide) (by rw [hlen2]; decide)
      (by rw [hlen2]; decide)).2.1 (by decide)

/-! ## Sources shorter than a header -/

/-- C4 fails on the code: on the first 40 bytes of the `wall01` header
`src/read_wal.c` runs to its end and prints name, width 64 and height 64; the
header reads of the web variant return 1, 1, 1, 0, 0, 0, 0, 0, leave width 64
and height 64 and a `flags` made of prior storage only; no variant reports
`TruncatedHeader`. -/
theorem short_source_decoded :
    wall01_40.length = 40
      ∧ Root.main (some wall01_40) (filled 170) = .ok wall01_40_run
      ∧ (Web.main_header (filled 170) (fopen wall01_40)).rets = [1, 1, 1, 0, 0, 0, 0, 0]
      ∧ (Web.main_header (filled 170) (fopen wall01_40)).hdr.width = 64
      ∧ (Web.main_header (filled 170) (fopen wall01_40)).hdr.height = 64
      ∧ (Web.main_header (filled 170) (fopen wall01_40)).hdr.flags = -1431655766
      ∧ Web.main 8000000 (some wall01_40) (filled 170) ≠ .failure .TruncatedHeader
      ∧ C.main (some wall01_40) (filled 170) ≠ .failure .TruncatedHeader := by
  refine ⟨by decide, by decide, ?_, ?_, ?_, ?_, web_main_ne_failure _ _ _ _,
    c_main_ne_failure _ _ _⟩ <;> (rw [web_header_eq]; decide)

/-- C4 as the code has it: on a source shorter than 100 bytes no variant reports
a failure. Every `fread` transfers what is left of the source at its turn; each
local is the source bytes at its offset laid over the local's prior contents;
the last `fread` of the eight-field variants returns 0 and the stream ends at
the length of the source. Locals whose bytes lie inside the source hold what a
complete header would give them (shown for `tex_name`, `width`, `height`). -/
theorem short_header_unchecked (room : Nat) (src : List Byte) (g : Indeterminate)
    (h : src.length < 100) :
    (∀ e, Root.main (some src) g ≠ .failure e)
      ∧ (∀ e, C.main (some src) g ≠ .failure e)
      ∧ (∀ e, Web.main room (some src) g ≠ .failure e)
      ∧ C.main_header g (fopen src) = Web.main_header g (fopen src)
      ∧ Web.main_header g (fopen src) =
          { hdr :=
              { tex_name := store g.tex_name 32 ((src.drop 0).take 32)
                width := int_value (store g.width 4 ((src.drop 32).take 4))
                height := int_value (store g.height 4 ((src.drop 36).take 4))
                mip_level_offsets := (List.range 4).map
                  (int_at (store g.mip_level_offsets 16 ((src.drop 40).take 16)))
                anim_name := store g.anim_name 32 ((src.drop 56).take 32)
                flags := int_value (store g.flags 4 ((src.drop 88).take 4))
                contents := int_value (store g.contents 4 ((src.drop 92).take 4))
                value := int_value (store g.value 4 ((src.drop 96).take 4)) }
            rets :=
              [ if 32 ≤ src.length then 1 else 0, if 36 ≤ src.length then 1 else 0
              , if 40 ≤ src.length then 1 else 0, if 56 ≤ src.length then 1 else 0
              , if 88 ≤ src.length then 1 else 0, if 92 ≤ src.length then 1 else 0
              , if 96 ≤ src.length then 1 else 0, 0 ]
            fh := ⟨src, src.length⟩ }
      ∧ (Root.main_header g (fopen src)).hdr =
          { tex_name := store g.tex_name 32 ((src.drop 0).take 32)
            width := int_value (store g.width 4 ((src.drop 32).take 4))
            height := int_value (store g.height 4 ((src.drop 36).take 4)) }
      ∧ (32 ≤ src.length → store g.tex_name 32 ((src.drop 0).take 32) = (src.drop 0).take 32)
      ∧ (36 ≤ src.length → int_value (store g.width 4 ((src.drop 32).take 4)) = le_int32 src 32)
      ∧ (40 ≤ src.length →
          int_value (store g.height 4 ((src.drop 36).take 4)) = le_int32 src 36) := by
  refine ⟨fun e => root_main_ne_failure src g e, fun e => c_main_ne_failure src g e,
    fun e => web_main_ne_failure room src g e, rfl, ?_, ?_, ?_, ?_, ?_⟩
  · rw [web_header_eq, if_neg (by omega : ¬ 100 ≤ src.length), Nat.min_eq_right (by omega)]
  · rw [root_header_eq]
  · intro c
    exact store_slice _ _ 0 32 (by omega)
  · intro c
    rw [store_slice _ _ 32 4 (by omega), int_value_drop_take]
  · intro c
    rw [store_slice _ _ 36 4 (by omega), int_value_drop_take]

/-- C4 as the code has it, at the first 99 bytes of the `wall01` header. -/
theorem short_header_unchecked_witness :
    wall01_99.length < 100
      ∧ (∀ e, Web.main 8000000 (some wall01_99) (filled 170) ≠ .failure e)
      ∧ (Web.main_header (filled 170) (fopen wall01_99)).fh = ⟨wall01_99, 99⟩ := by
  have hl : wall01_99.length < 100 := by decide
  obtain ⟨-, -, h3, -, h5, -⟩ := short_header_unchecked 8000000 wall01_99 (filled 170) hl
  refine ⟨hl, h3, ?_⟩
  rw [h5]
  decide

/-! ## Dimensions that are not positive -/

/-- C5 fails on the code: a header with width -1 and height -1 (bytes `FF` at
32..39) is printed and then read like any other: the product is 1, the array is
sized at 4 bytes, the `fseek` to offset 100 succeeds and the `fread` obtains the
4 bytes there; the run ends with status 0. -/
theorem negative_dimensions_read :
    neg_fields.width = -1 ∧ neg_fields.height = -1
      ∧ ((encode neg_fields).drop 32).take 8 = [255, 255, 255, 255, 255, 255, 255, 255]
      ∧ Web.main 8000000 (some (encode neg_fields ++ [1, 2, 3, 4])) (filled 170)
        = .ok { header := neg_fields, stdout := neg_stdout
                mip := { requested := 4, seek_ret := 0, start := 100, got := [1, 2, 3, 4]
                         read_ret := 1, pixel_data := [1, 2, 3, 4]
                         fh := ⟨encode neg_fields ++ [1, 2, 3, 4], 104⟩ }
                status := 0 } := by
  refine ⟨rfl, rfl, by decide, ?_⟩
  apply encoded_run 8000000 neg_fields wf_neg _ _ _ neg_print
  rw [web_pixels_seek _ _ neg_fields _ (by decide) (by decide) (by decide) (by decide)]
  have e1 : (neg_fields.mip_level_offsets.getD 0 0).toNat = 100 := by decide
  have e2 : 4 * (neg_fields.width * neg_fields.height).toNat = 4 := by decide
  simp only [e1, e2, drop_encode neg_fields wf_neg, List.length_append,
    encode_length neg_fields wf_neg]
  rfl

/-- C5 as the code has it: for a header with `width <= 0` or `height <= 0` the
first-mip step never reports `InvalidDimensions`; it sizes the array from
`width*height` with no check. When the product is not positive the array has no
valid size and C defines no behaviour. When the product is positive (both
dimensions negative) and an `int`, the step does exactly what it does for the
header with both signs flipped, and when the array fits the stack that is a
completed seek and read. -/
theorem nonpositive_dimensions_unchecked (room : Nat) (old : Nat → Byte) (h : Header)
    (fh : FILE) (hd : h.width ≤ 0 ∨ h.height ≤ 0) :
    Web.main_pixels room old h fh ≠ .failure .InvalidDimensions
      ∧ (h.width * h.height ≤ 0 → Web.main_pixels room old h fh = .undefined)
      ∧ (0 < h.width * h.height → h.width * h.height ≤ 2147483647 →
          h.width < 0 ∧ h.height < 0
            ∧ Web.main_pixels room old h fh
                = Web.main_pixels room old { h with width := -h.width, height := -h.height } fh
            ∧ (4 * (h.width * h.height).toNat ≤ room →
              ∃ m, Web.main_pixels room old h fh = .ok m
                ∧ Web.main_pixels room old { h with width := -h.width, height := -h.height } fh
                    = .ok m)) := by
  refine ⟨web_pixels_ne_failure _ _ _ _ _, web_pixels_undefined room old h fh, ?_⟩
  intro hp hsz
  have hneg : h.width < 0 ∧ h.height < 0 := by
    rcases hd with hw | hh
    · have hw2 : h.width < 0 := by
        by_contra c
        have c0 : h.width = 0 := by omega
        rw [c0, Int.zero_mul] at hp
        omega
      exact ⟨hw2, by
        by_contra c
        have : h.width * h.height ≤ 0 := Int.mul_nonpos_of_nonpos_of_nonneg hw (by omega)
        omega⟩
    · have hh2 : h.height < 0 := by
        by_contra c
        have c0 : h.height = 0 := by omega
        rw [c0, Int.mul_zero] at hp
        omega
      exact ⟨by
        by_contra c
        have : h.width * h.height ≤ 0 := Int.mul_nonpos_of_nonneg_of_nonpos (by omega) hh
        omega, hh2⟩
  have e : -h.width * -h.height = h.width * h.height := Int.neg_mul_neg _ _
  have same : Web.main_pixels room old h fh
      = Web.main_pixels room old { h with width := -h.width, height := -h.height } fh := by
    simp only [Web.main_pixels, e]
  refine ⟨hneg.1, hneg.2, same, fun hr => ⟨_, web_pixels_ok room old h fh hp hsz hr, ?_⟩⟩
  rw [← same]
  exact web_pixels_ok room old h fh hp hsz hr

/-- C5 as the code has it, at width 0. -/
theorem nonpositive_dimensions_unchecked_witness :
    (zero_fields.width ≤ 0 ∨ zero_fields.height ≤ 0)
      ∧ Web.main_pixels 8000000 (fun _ => 170) zero_fields
          ⟨encode zero_fields ++ [1, 2, 3, 4], 100⟩ = .undefined :=
  ⟨Or.inl (by decide),
    (nonpositive_dimensions_unchecked 8000000 (fun _ => 170) zero_fields
      ⟨encode zero_fields ++ [1, 2, 3, 4], 100⟩ (Or.inl (by decide))).2.1 (by decide)⟩

/-! ## Offsets outside the source -/

/-- C6 fails on the code: on a 1x1 header whose first mip offset is -1 (bytes
`FF` at 40..43) the `fseek` returns -1, the position stays at 100, and the
`fread` obtains the bytes there; the run ends with status 0. -/
theorem negative_offset_read :
    negoff_fields.mip_level_offsets.getD 0 0 = -1
      ∧ ((encode negoff_fields).drop 40).take 4 = [255, 255, 255, 255]
      ∧ Web.main 8000000 (some (encode negoff_fields ++ [1, 2, 3, 4])) (filled 170)
        = .ok { header := negoff_fields, stdout := negoff_stdout
                mip := { requested := 4, seek_ret := -1, start := 100, got := [1, 2, 3, 4]
                         read_ret := 1, pixel_data := [1, 2, 3, 4]
                         fh := ⟨encode negoff_fields ++ [1, 2, 3, 4], 104⟩ }
                status := 0 } := by
  refine ⟨rfl, by decide, ?_⟩
  apply encoded_run 8000000 negoff_fields wf_negoff _ _ _ negoff_print
  rw [web_pixels_noseek _ _ negoff_fields _ (by decide) (by decide) (by decide) (by decide)]
  have e2 : 4 * (negoff_fields.width * negoff_fields.height).toNat = 4 := by decide
  simp only [e2, drop_encode negoff_fields wf_negoff, List.length_append,
    encode_length negoff_fields wf_negoff]
  rfl

/-- C6 as the code has it: for a header whose array size is defined and whose
`mip_level_offsets[0]` is negative or past the end of the source, the first-mip
step never reports `InvalidOffset`. When the array does not fit the stack the
process is killed at the array's declaration, before the `fseek`. When it fits:
past the end, `fseek` returns 0, `fread` transfers no byte and returns 0, and
the array keeps its prior contents; for a negative offset `fseek` returns -1,
the position is left where it was and the `fread` takes its bytes from
there. -/
theorem bad_offset_unchecked (room : Nat) (old : Nat → Byte) (h : Header) (fh : FILE)
    (h1 : 0 < h.width * h.height) (h2 : h.width * h.height ≤ 2147483647)
    (ho : h.mip_level_offsets.getD 0 0 < 0
      ∨ (fh.data.length : Int) < h.mip_level_offsets.getD 0 0) :
    Web.main_pixels room old h fh ≠ .failure .InvalidOffset
      ∧ (room < 4 * (h.width * h.height).toNat → Web.main_pixels room old h fh = .killed)
      ∧ (4 * (h.width * h.height).toNat ≤ room →
        ∃ m, Web.main_pixels room old h fh = .ok m
          ∧ m.got = (fh.data.drop m.start).take m.requested
          ∧ ((fh.data.length : Int) < h.mip_level_offsets.getD 0 0 →
              m.seek_ret = 0 ∧ m.start = (h.mip_level_offsets.getD 0 0).toNat ∧ m.got = []
                ∧ m.read_ret = 0 ∧ ∀ i, i < m.requested → m.pixel_data[i]? = some (old i))
          ∧ (h.mip_level_offsets.getD 0 0 < 0 → m.seek_ret = -1 ∧ m.start = fh.pos)) := by
  refine ⟨web_pixels_ne_failure _ _ _ _ _, web_pixels_killed room old h fh h1 h2,
    fun hr => ?_⟩
  rcases ho with hneg | hfar
  · refine ⟨_, web_pixels_noseek room old h fh h1 h2 hr hneg, rfl, ?_, ?_⟩
    · intro c
      omega
    · intro _
      exact ⟨rfl, rfl⟩
  · have hnn : 0 ≤ h.mip_level_offsets.getD 0 0 := by omega
    have hd : fh.data.drop (h.mip_level_offsets.getD 0 0).toNat = [] :=
      List.drop_eq_nil_of_le (by omega)
    refine ⟨_, web_pixels_seek room old h fh h1 h2 hr hnn, rfl, ?_, ?_⟩
    · intro _
      refine ⟨rfl, rfl, ?_, ?_, ?_⟩
      · simp only [hd, List.take_nil]
      · simp only
        rw [if_neg (by omega)]
      · intro i hi
        simp only [hd, List.take_nil] at hi ⊢
        exact store_nil_getElem? old _ i hi
    · intro c
      omega

/-- C6 as the code has it, at offset 5000 in a file of 104 bytes: with a 1x1
header nothing is read, with a 1024x2048 header the process is killed. -/
theorem bad_offset_unchecked_witness :
    (∃ m, Web.main_pixels 8000000 (fun _ => 170) faroff_fields
        ⟨encode faroff_fields ++ [1, 2, 3, 4], 100⟩ = .ok m
      ∧ m.seek_ret = 0 ∧ m.start = 5000 ∧ m.got = [] ∧ m.read_ret = 0
      ∧ m.pixel_data[0]? = some 170)
    ∧ Web.main_pixels 8000000 (fun _ => 170)
        { big_fields with mip_level_offsets := [5000, 4196, 5220, 5476] }
        ⟨encode faroff_fields ++ [1, 2, 3, 4], 100⟩ = .killed := by
  have hlen : ((encode faroff_fields ++ [1, 2, 3, 4]).length : Int) = 104 := by
    rw [List.length_append, encode_length faroff_fields wf_faroff]
    rfl
  have hfar : ((encode faroff_fields ++ [1, 2, 3, 4]).length : Int)
      < faroff_fields.mip_level_offsets.getD 0 0 := by
    rw [hlen]
    decide
  constructor
  · obtain ⟨m, hm, -, hf, -⟩ :=
      (bad_offset_unchecked 8000000 (fun _ => 170) faroff_fields
        ⟨encode faroff_fields ++ [1, 2, 3, 4], 100⟩
        (by decide) (by decide) (Or.inr hfar)).2.2 (by decide)
    obtain ⟨a, b, c, d, e⟩ := hf hfar
    have hreq : 0 < m.requested := by
      rw [web_pixels_ok _ _ _ _ (by decide) (by decide) (by decide)] at hm
      injection hm with hm
      rw [← hm]
      decide
    exact ⟨m, hm, a, by rw [b]; decide, c, d, e 0 hreq⟩
  · exact (bad_offset_unchecked 8000000 (fun _ => 170)
      { big_fields with mip_level_offsets := [5000, 4196, 5220, 5476] }
      ⟨encode faroff_fields ++ [1, 2, 3, 4], 100⟩
      (by decide) (by decide) (Or.inr (by rw [hlen]; decide))).2.1 (by decide)

/-! ## Bytes consumed by the header reads -/

/-- C7: on every source of at least 100 bytes the header reads of
`src/c/read_wal.c` and of `src/web/c/read_wal.c` leave the stream at position
100 = 32 + 4 + 4 + 16 + 32 + 4 + 4 + 4, whatever the header holds. -/
theorem header_consumes_100 (src : List Byte) (g : Indeterminate) (h : 100 ≤ src.length) :
    (C.main_header g (fopen src)).fh = ⟨src, 100⟩
      ∧ (Web.main_header g (fopen src)).fh = ⟨src, 100⟩
      ∧ (Web.main_header g (fopen src)).fh.pos = 32 + 4 + 4 + 16 + 32 + 4 + 4 + 4 := by
  rw [c_header_eq_web, web_header_full src g h]
  exact ⟨rfl, rfl, rfl⟩

/-- C7 at the `wall01` header followed by three bytes. -/
theorem header_consumes_100_witness :
    (C.main_header (filled 0) (fopen (wall01_header ++ [1, 2, 3]))).fh
        = ⟨wall01_header ++ [1, 2, 3], 100⟩
      ∧ (Web.main_header (filled 0) (fopen (wall01_header ++ [1, 2, 3]))).fh
        = ⟨wall01_header ++ [1, 2, 3], 100⟩
      ∧ (Web.main_header (filled 0) (fopen (wall01_header ++ [1, 2, 3]))).fh.pos
        = 32 + 4 + 4 + 16 + 32 + 4 + 4 + 4 :=
  header_consumes_100 (wall01_header ++ [1, 2, 3]) (filled 0) (wall01_length_le _)

/-! ## No validation of header values -/

/-- C8: the header reads check no value. Any names of 32 bytes and any nine
`int` values, negative and zero included, written in the on-disk form and
followed by any bytes, come back exactly, with every `fread` returning 1 and the
stream at 100; every source of at least 100 bytes is such an encoding of the
header read from it; and on every such source all eight `fread`s return 1. -/
theorem header_values_unvalidated :
    (∀ (H : Header) (rest : List Byte) (g : Indeterminate), well_formed H →
      Web.main_header g (fopen (encode H ++ rest))
          = { hdr := H, rets := [1, 1, 1, 1, 1, 1, 1, 1], fh := ⟨encode H ++ rest, 100⟩ }
        ∧ C.main_header g (fopen (encode H ++ rest))
          = { hdr := H, rets := [1, 1, 1, 1, 1, 1, 1, 1], fh := ⟨encode H ++ rest, 100⟩ })
    ∧ (∀ (src : List Byte), 100 ≤ src.length →
      well_formed (layout src) ∧ encode (layout src) ++ src.drop 100 = src)
    ∧ (∀ (src : List Byte) (g : Indeterminate), 100 ≤ src.length →
      (Web.main_header g (fopen src)).rets = [1, 1, 1, 1, 1, 1, 1, 1]
        ∧ (C.main_header g (fopen src)).rets = [1, 1, 1, 1, 1, 1, 1, 1]) := by
  refine ⟨?_, ?_, ?_⟩
  · intro H rest g wf
    rw [c_header_eq_web, web_header_full _ g (encode_append_length H wf rest),
      layout_encode H wf rest]
    exact ⟨rfl, rfl⟩
  · intro src h
    refine ⟨layout_well_formed src h, ?_⟩
    rw [encode_layout src h, List.drop_zero, List.take_append_drop]
  · intro src g h
    rw [c_header_eq_web, web_header_full src g h]
    exact ⟨rfl, rfl⟩

/-- C8 at width -1: bytes `FF FF FF FF` at offset 32 are read as -1. -/
theorem header_values_unvalidated_witness :
    well_formed neg_fields
      ∧ ((encode neg_fields).drop 32).take 4 = [255, 255, 255, 255]
      ∧ (Web.main_header (filled 170) (fopen (encode neg_fields ++ [1, 2, 3, 4]))).hdr.width
          = -1 := by
  refine ⟨wf_neg, by decide, ?_⟩
  rw [(header_values_unvalidated.1 neg_fields [1, 2, 3, 4] (filled 170) wf_neg).1]
  rfl

/-! ## Dependence on the source bytes -/

end Wal
